import Mathlib

/-!
Verification development for the unpoller `poller` core: the configuration
resolution pipeline (`config.go`) and the webserver plugin-status handlers.

Go strings are modelled as `List Char` (`GoStr`); Go maps as association
lists with unique keys; fallible external calls (file stat, `plugin.Open`,
config unmarshalling) as environment functions returning `Option Err`.
Sequential side effects that the claims talk about (which pipeline steps ran,
lock acquisition/release, response serialization) are made observable as
event traces returned alongside each function's result, mirroring the
statement order of the Go source.
-/

/-- Go strings, modelled as lists of characters. -/
abbrev GoStr := List Char

/-- Coerce a Lean string literal to the `GoStr` model. -/
def gs (s : String) : GoStr := s.data

/-- Go `error` values: a base message or a wrapping via `fmt.Errorf("...: %w", err)`. -/
inductive Err where
  | base (msg : GoStr)
  | wrap (ctx : GoStr) (cause : Err)
deriving DecidableEq, Repr

/-- Association-list lookup (model of Go map indexing with `ok` flag). -/
def alookup {α : Type} : List (GoStr × α) → GoStr → Option α
  | [], _ => none
  | (k, v) :: rest, q => if k = q then some v else alookup rest q

/-- Go `strings.TrimSuffix(s, suf)`: drop `suf` from the end if present, else `s`. -/
def trimSuffix (s suf : GoStr) : GoStr :=
  if suf <:+ s then s.take (s.length - suf.length) else s

/-- The literal `".so"`. -/
def soSuffix : GoStr := gs ".so"

/-- The name normalization in `LoadPlugins`: `strings.TrimSuffix(p, ".so") + ".so"`. -/
def normalizeSo (p : GoStr) : GoStr := trimSuffix p soSuffix ++ soSuffix

/-- Go `path.Join` restricted to a clean dir and a clean relative name. -/
def pathJoin (dir name : GoStr) : GoStr := dir ++ gs "/" ++ name

/-- Modelled from the spec: `DefaultObjPath`, the fixed default search directory
for dynamic plugin modules, is declared elsewhere in the repository; the spec
says paths not found literally resolve against a fixed search directory. -/
def DefaultObjPath : GoStr := gs "/usr/lib/unifi-poller"

/-- The filesystem / dynamic-loader environment seen by `LoadPlugins`:
`statMissing p` is true when `os.Stat(p)` fails with `os.IsNotExist`, and
`openErr p` is the result of `plugin.Open(p)` (`none` = success). -/
structure FsEnv where
  statMissing : GoStr → Bool
  openErr : GoStr → Option Err

/-- The path `LoadPlugins` actually opens for a declared path `p`: the
normalized name, re-based onto `DefaultObjPath` when the literal path is absent. -/
def resolvedName (fs : FsEnv) (p : GoStr) : GoStr :=
  let name := normalizeSo p
  if fs.statMissing name then pathJoin DefaultObjPath name else name

/-- `UnifiPoller.LoadPlugins` from `config.go`: for each declared path,
normalize the `".so"` suffix, skip a name equal to just `".so"`, re-base a
missing literal path onto `DefaultObjPath`, and open the module, returning
the first open error wrapped as `"opening plugin: %w"`. The second component
records the successfully opened module paths, in order. -/
def LoadPlugins (fs : FsEnv) : List GoStr → Option Err × List GoStr
  | [] => (none, [])
  | p :: rest =>
    let name := normalizeSo p
    if name = soSuffix then
      LoadPlugins fs rest
    else
      let name1 := if fs.statMissing name then pathJoin DefaultObjPath name else name
      match fs.openErr name1 with
      | some e => (some (Err.wrap (gs "opening plugin") e), [])
      | none =>
        let r := LoadPlugins fs rest
        (r.1, name1 :: r.2)

/-- An opaque identifier for a Go config struct (a `Config` target passed to
`parseInterface` — the core `u.Config`, or a registered plugin's `.Config`). -/
abbrev Target := Nat

/-- The environment of the configuration resolver: the outcome of
`cnfgfile.Unmarshal` (`fileErr`) and `cnfg.UnmarshalENV` (`envErr`) on each
target struct, the distinguished core config target, the resolved
`poller.plugins` list, the registered input and output plugin config targets
in registration order, and the loader's filesystem environment. -/
structure CfgEnv where
  fileErr : Target → Option Err
  envErr : Target → Option Err
  core : Target
  plugins : List GoStr
  inputs : List Target
  outputs : List Target
  fs : FsEnv

/-- `UnifiPoller.parseInterface` from `config.go`: unmarshal the config file
into the target, then the prefixed environment variables; each failure is
wrapped (`"cnfg unmarshal: %w"`, `"env unmarshal: %w"`) and returned. -/
def parseInterface (env : CfgEnv) (t : Target) : Option Err :=
  match env.fileErr t with
  | some e => some (Err.wrap (gs "cnfg unmarshal") e)
  | none =>
    match env.envErr t with
    | some e => some (Err.wrap (gs "env unmarshal") e)
    | none => none

/-- Events of a registry-scoped resolution step (`parseInputs` /
`parseOutputs`): taking the registry mutex, attempting `parseInterface` on one
registered plugin's config, releasing the mutex. -/
inductive REv where
  | lock
  | parse (t : Target)
  | unlock
deriving DecidableEq, Repr

/-- The shared loop body of `parseInputs` / `parseOutputs`: apply
`parseInterface` to each registered config in order, stopping at the first
failure. The trace records each attempted target, in order. -/
def parseSeq (env : CfgEnv) : List Target → Option Err × List REv
  | [] => (none, [])
  | t :: rest =>
    match parseInterface env t with
    | some e => (some e, [REv.parse t])
    | none =>
      let r := parseSeq env rest
      (r.1, REv.parse t :: r.2)

/-- `UnifiPoller.parseInputs` from `config.go`: under `inputSync`
(`Lock` on entry, `Unlock` deferred to every exit path), resolve each
registered input plugin's config in registration order, first failure wins. -/
def parseInputs (env : CfgEnv) : Option Err × List REv :=
  let r := parseSeq env env.inputs
  (r.1, REv.lock :: r.2 ++ [REv.unlock])

/-- `UnifiPoller.parseOutputs` from `config.go`: identical to `parseInputs`
but over the output registry under `outputSync`. -/
def parseOutputs (env : CfgEnv) : Option Err × List REv :=
  let r := parseSeq env env.outputs
  (r.1, REv.lock :: r.2 ++ [REv.unlock])

/-- The four steps of `ParseConfigs`, used to record which steps executed. -/
inductive StepTag where
  | core
  | load
  | inputs
  | outputs
deriving DecidableEq, Repr

/-- `UnifiPoller.ParseConfigs` from `config.go`: resolve the core config,
load dynamic plugins, resolve input plugin configs, resolve output plugin
configs — each step guarded by an early `return err`. The trace records the
steps that were executed (a failing step is recorded, the steps after it are
not reached). -/
def ParseConfigs (env : CfgEnv) : Option Err × List StepTag :=
  match parseInterface env env.core with
  | some e => (some e, [StepTag.core])
  | none =>
    match (LoadPlugins env.fs env.plugins).1 with
    | some e => (some e, [StepTag.core, StepTag.load])
    | none =>
      match (parseInputs env).1 with
      | some e => (some e, [StepTag.core, StepTag.load, StepTag.inputs])
      | none =>
        ((parseOutputs env).1,
          [StepTag.core, StepTag.load, StepTag.inputs, StepTag.outputs])

/-- A module entry of the running binary's build manifest
(`runtime/debug.Module`: `Path`, `Version`). -/
structure DepModule where
  path : GoStr
  version : GoStr
deriving DecidableEq, Repr

/-- `runtime/debug.BuildInfo`, reduced to the dependency list the code reads. -/
structure BuildInfo where
  deps : List DepModule
deriving DecidableEq, Repr

/-- The descriptor record built by `getPlugins`'s local `plugin` struct:
`{Name, Version, Path}`. -/
structure PluginRec where
  name : GoStr
  version : GoStr
  path : GoStr
deriving DecidableEq, Repr

/-- The `parse` closure inside `getPlugins`: for each registered
`name → declared source path` entry, scan `bi.Deps` in order and, at the first
module whose `Path` equals the declared path, record
`plugin{Name: k, Path: v, Version: dep.Version}`; an entry with no matching
dependency adds nothing. Go's map is modelled as an association list whose
keys are unique (plugin names are unique per role). -/
def parseRole (deps : List DepModule) (values : List (GoStr × GoStr)) :
    List (GoStr × PluginRec) :=
  values.filterMap fun kv =>
    match deps.find? (fun d => decide (d.path = kv.2)) with
    | some d => some (kv.1, PluginRec.mk kv.1 d.version kv.2)
    | none => none

/-- The environment of `getPlugins`: `debug.ReadBuildInfo()` (`none` models
`!ok || bi == nil`), and the registered name → source-path maps returned by
the external `s.Collect.Inputs("")` and `s.Collect.Outputs("")`. -/
structure CollectEnv where
  buildInfo : Option BuildInfo
  inputsMap : List (GoStr × GoStr)
  outputsMap : List (GoStr × GoStr)

/-- `Server.getPlugins` from the webserver handlers file: substitute an empty
dependency list when build info is unavailable, then build the
`{"inputs": …, "outputs": …}` map by matching each registered plugin's
declared path against the manifest. -/
def getPlugins (env : CollectEnv) : List (GoStr × List (GoStr × PluginRec)) :=
  let deps :=
    match env.buildInfo with
    | some bi => bi.deps
    | none => []
  [(gs "inputs", parseRole deps env.inputsMap),
   (gs "outputs", parseRole deps env.outputsMap)]

/-- A plugin state container as read by the handlers: `Config`, the keyed
`Events` map, the `Counter` map, and (inputs only) `Sites`, `Devices`,
`Clients`. Payloads the handlers merely pass to serialization are opaque
(`Nat` snapshot identities); `Events.Groups`, `Devices.Filter` and
`Clients.Filter` are methods of external types, modelled as opaque functions
of the query value. -/
structure Container where
  config : Nat
  events : List (GoStr × Nat)
  groupsFn : GoStr → Nat
  counter : List (GoStr × Int)
  sites : Nat
  devicesFilter : GoStr → Nat
  clientsFilter : GoStr → Nat

/-- A plugin registry view (`s.plugins.getOutput` / `s.plugins.getInput`):
name → container, `none` for an unregistered name. -/
abbrev Registry := List (GoStr × Container)

/-- The mux route variables a handler reads: the plugin name
(`vars["output"]` / `vars["input"]`), `vars["sub"]`, and `vars["value"]`. -/
structure Vars where
  name : GoStr
  sub : GoStr
  value : GoStr

/-- The JSON payload a handler serializes. -/
inductive Val where
  | config (c : Nat)
  | groups (g : Nat)
  | eventsAll (m : List (GoStr × Nat))
  | eventsOne (e : Nat)
  | counters (m : List (GoStr × Int))
  | sites (s : Nat)
  | devices (d : Nat)
  | clients (c : Nat)
deriving DecidableEq, Repr

/-- A handler's response: a serialized JSON body (`handleJSON`) or the
uniform missing-resource response (`handleMissing`). -/
inductive Response where
  | json (v : Val)
  | missing
deriving DecidableEq, Repr

/-- Observable handler events: the catalog lookup, read-lock acquisition and
release on the target container, and serialization of the response body. -/
inductive HEv where
  | lookup (n : GoStr)
  | rlock
  | runlock
  | serialize
deriving DecidableEq, Repr

/-- Go map read with zero default: `c.Counter[val]` yields `0` for an absent key. -/
def counterGet (m : List (GoStr × Int)) (k : GoStr) : Int :=
  (alookup m k).getD 0

/-- The body of `handleOutput`'s `switch vars["sub"]` once the container is in
hand: default serves `c.Config`; `"eventgroups"` serves `c.Events.Groups(val)`;
`"events"` serves the whole map for an empty key, the single entry for a
present key, and the missing response otherwise; `"counters"` serves the whole
map for an empty key, else the singleton `{val: c.Counter[val]}`. -/
def outputBody (c : Container) (sub val : GoStr) : Response :=
  if sub = gs "eventgroups" then
    Response.json (Val.groups (c.groupsFn val))
  else if sub = gs "events" then
    if val = [] then Response.json (Val.eventsAll c.events)
    else
      match alookup c.events val with
      | some events => Response.json (Val.eventsOne events)
      | none => Response.missing
  else if sub = gs "counters" then
    if val = [] then Response.json (Val.counters c.counter)
    else Response.json (Val.counters [(val, counterGet c.counter val)])
  else
    Response.json (Val.config c.config)

/-- `Server.handleOutput` from the webserver handlers file: resolve
`vars["output"]` in the catalog; on a miss, serve the missing-resource
response without touching any container; otherwise `RLock` the container
(with `RUnlock` deferred to handler return), serve the selected view.
Serialization (`handleJSON` / `handleMissing`, modelled from the spec as
rendering the response body) happens inside the handler body, so its event
precedes the deferred `runlock`. -/
def handleOutput (reg : Registry) (vars : Vars) : Response × List HEv :=
  match alookup reg vars.name with
  | none => (Response.missing, [HEv.lookup vars.name, HEv.serialize])
  | some c =>
    (outputBody c vars.sub vars.value,
     [HEv.lookup vars.name, HEv.rlock, HEv.serialize, HEv.runlock])

/-- The body of `handleInput`'s `switch vars["sub"]`: like `outputBody`, plus
`"sites"`, `"devices"` and `"clients"` views; the counters conditional is
written mirrored in the source (`if val != "" { keyed } else { all }`). -/
def inputBody (c : Container) (sub val : GoStr) : Response :=
  if sub = gs "eventgroups" then
    Response.json (Val.groups (c.groupsFn val))
  else if sub = gs "events" then
    if val = [] then Response.json (Val.eventsAll c.events)
    else
      match alookup c.events val with
      | some events => Response.json (Val.eventsOne events)
      | none => Response.missing
  else if sub = gs "sites" then
    Response.json (Val.sites c.sites)
  else if sub = gs "devices" then
    Response.json (Val.devices (c.devicesFilter val))
  else if sub = gs "clients" then
    Response.json (Val.clients (c.clientsFilter val))
  else if sub = gs "counters" then
    if val ≠ [] then Response.json (Val.counters [(val, counterGet c.counter val)])
    else Response.json (Val.counters c.counter)
  else
    Response.json (Val.config c.config)

/-- `Server.handleInput` from the webserver handlers file: same shape as
`handleOutput` over `vars["input"]` and the input registry. -/
def handleInput (reg : Registry) (vars : Vars) : Response × List HEv :=
  match alookup reg vars.name with
  | none => (Response.missing, [HEv.lookup vars.name, HEv.serialize])
  | some c =>
    (inputBody c vars.sub vars.value,
     [HEv.lookup vars.name, HEv.rlock, HEv.serialize, HEv.runlock])

/-- The container's read lock is held just before position `i` of a handler
trace: strictly more acquisitions than releases so far. -/
def lockHeldAt (tr : List HEv) (i : Nat) : Prop :=
  (tr.take i).count HEv.runlock < (tr.take i).count HEv.rlock

/-- The property the spec asserts of every plugin-scoped read handler:
serialization of the response body never happens while the container's read
lock is held. -/
def serializeOutsideLock (tr : List HEv) : Prop :=
  ∀ i : Fin tr.length, tr.get i = HEv.serialize → ¬ lockHeldAt tr i.val

/-- The property "the path carries exactly one `.so` suffix": it ends with
`".so"`, and stripping that one occurrence leaves no further `".so"` suffix. -/
def exactlyOneSoSuffix (s : GoStr) : Prop :=
  soSuffix <:+ s ∧ ¬ soSuffix <:+ trimSuffix s soSuffix

/-- A concrete plugin state container used to exercise the handlers. -/
def sampleContainer : Container where
  config := 7
  events := [(gs "login", 3)]
  groupsFn := fun _ => 11
  counter := [(gs "polls", 5)]
  sites := 13
  devicesFilter := fun _ => 17
  clientsFilter := fun _ => 19

/-- A concrete registry with one registered plugin, `"influxdb"`. -/
def sampleReg : Registry := [(gs "influxdb", sampleContainer)]

/-- Concrete route variables for the registered plugin's counters view. -/
def sampleVars : Vars := ⟨gs "influxdb", gs "counters", gs "polls"⟩

/-- A configuration environment where every step succeeds. -/
def okEnv : CfgEnv where
  fileErr := fun _ => none
  envErr := fun _ => none
  core := 0
  plugins := [gs "example"]
  inputs := [1, 2]
  outputs := [3]
  fs := ⟨fun _ => false, fun _ => none⟩

/-- A configuration environment whose core config file fails to parse. -/
def coreFailEnv : CfgEnv where
  fileErr := fun _ => some (Err.base (gs "bad toml"))
  envErr := fun _ => none
  core := 0
  plugins := [gs "example"]
  inputs := [1, 2]
  outputs := [3]
  fs := ⟨fun _ => false, fun _ => none⟩

/-- A loader environment in which every `plugin.Open` fails. -/
def openFailFs : FsEnv := ⟨fun _ => false, fun _ => some (Err.base (gs "no such file"))⟩

/-- A collect environment with one registered input whose declared path has no
build-manifest entry. -/
def unmatchedEnv : CollectEnv where
  buildInfo := some ⟨[]⟩
  inputsMap := [(gs "unifi", gs "github.com/unpoller/unifi")]
  outputsMap := []

/-- A collect environment with one registered input whose declared path does
have a build-manifest entry. -/
def matchedEnv : CollectEnv where
  buildInfo := some ⟨[⟨gs "github.com/unpoller/unifi", gs "v0.3.5"⟩]⟩
  inputsMap := [(gs "unifi", gs "github.com/unpoller/unifi")]
  outputsMap := []

/-- A collect environment where `debug.ReadBuildInfo` reports no build info. -/
def noBuildInfoEnv : CollectEnv where
  buildInfo := none
  inputsMap := [(gs "unifi", gs "github.com/unpoller/unifi")]
  outputsMap := []

/-! ### Reduction lemmas for the handler switch bodies -/

theorem outputBody_eventgroups (c : Container) (val : GoStr) :
    outputBody c (gs "eventgroups") val = Response.json (Val.groups (c.groupsFn val)) := by
  unfold outputBody
  rw [if_pos rfl]

theorem outputBody_events (c : Container) (val : GoStr) :
    outputBody c (gs "events") val =
      if val = [] then Response.json (Val.eventsAll c.events)
      else
        match alookup c.events val with
        | some events => Response.json (Val.eventsOne events)
        | none => Response.missing := by
  unfold outputBody
  rw [if_neg (by decide), if_pos rfl]

theorem outputBody_counters (c : Container) (val : GoStr) :
    outputBody c (gs "counters") val =
      if val = [] then Response.json (Val.counters c.counter)
      else Response.json (Val.counters [(val, counterGet c.counter val)]) := by
  unfold outputBody
  rw [if_neg (by decide), if_neg (by decide), if_pos rfl]

theorem outputBody_default (c : Container) (sub val : GoStr)
    (h1 : sub ≠ gs "eventgroups") (h2 : sub ≠ gs "events") (h3 : sub ≠ gs "counters") :
    outputBody c sub val = Response.json (Val.config c.config) := by
  unfold outputBody
  rw [if_neg h1, if_neg h2, if_neg h3]

theorem inputBody_eventgroups (c : Container) (val : GoStr) :
    inputBody c (gs "eventgroups") val = Response.json (Val.groups (c.groupsFn val)) := by
  unfold inputBody
  rw [if_pos rfl]

theorem inputBody_events (c : Container) (val : GoStr) :
    inputBody c (gs "events") val =
      if val = [] then Response.json (Val.eventsAll c.events)
      else
        match alookup c.events val with
        | some events => Response.json (Val.eventsOne events)
        | none => Response.missing := by
  unfold inputBody
  rw [if_neg (by decide), if_pos rfl]

theorem inputBody_counters (c : Container) (val : GoStr) :
    inputBody c (gs "counters") val =
      if val ≠ [] then Response.json (Val.counters [(val, counterGet c.counter val)])
      else Response.json (Val.counters c.counter) := by
  unfold inputBody
  rw [if_neg (by decide), if_neg (by decide), if_neg (by decide), if_neg (by decide),
    if_neg (by decide), if_pos rfl]

theorem inputBody_default (c : Container) (sub val : GoStr)
    (h1 : sub ≠ gs "eventgroups") (h2 : sub ≠ gs "events") (h3 : sub ≠ gs "sites")
    (h4 : sub ≠ gs "devices") (h5 : sub ≠ gs "clients") (h6 : sub ≠ gs "counters") :
    inputBody c sub val = Response.json (Val.config c.config) := by
  unfold inputBody
  rw [if_neg h1, if_neg h2, if_neg h3, if_neg h4, if_neg h5, if_neg h6]

theorem handleOutput_found (reg : Registry) (vars : Vars) (c : Container)
    (h : alookup reg vars.name = some c) :
    handleOutput reg vars =
      (outputBody c vars.sub vars.value,
        [HEv.lookup vars.name, HEv.rlock, HEv.serialize, HEv.runlock]) := by
  unfold handleOutput
  rw [h]

theorem handleOutput_missing (reg : Registry) (vars : Vars)
    (h : alookup reg vars.name = none) :
    handleOutput reg vars = (Response.missing, [HEv.lookup vars.name, HEv.serialize]) := by
  unfold handleOutput
  rw [h]

theorem handleInput_found (reg : Registry) (vars : Vars) (c : Container)
    (h : alookup reg vars.name = some c) :
    handleInput reg vars =
      (inputBody c vars.sub vars.value,
        [HEv.lookup vars.name, HEv.rlock, HEv.serialize, HEv.runlock]) := by
  unfold handleInput
  rw [h]

theorem handleInput_missing (reg : Registry) (vars : Vars)
    (h : alookup reg vars.name = none) :
    handleInput reg vars = (Response.missing, [HEv.lookup vars.name, HEv.serialize]) := by
  unfold handleInput
  rw [h]

/-! ### Claim theorems -/

/-- C5: for every registered plugin and every non-empty counter key absent
from its counter map, the counters query returns the zero value for that key
and no error; for every unregistered plugin name, the query returns the
missing-resource response (and no counter payload at all). -/
theorem counters_zero_default_and_missing_plugin :
    (∀ (reg : Registry) (vars : Vars) (c : Container),
        alookup reg vars.name = some c →
        vars.sub = gs "counters" →
        vars.value ≠ [] →
        alookup c.counter vars.value = none →
        (handleOutput reg vars).1 = Response.json (Val.counters [(vars.value, 0)]) ∧
        (handleInput reg vars).1 = Response.json (Val.counters [(vars.value, 0)])) ∧
    (∀ (reg : Registry) (vars : Vars),
        alookup reg vars.name = none →
        (handleOutput reg vars).1 = Response.missing ∧
        (handleInput reg vars).1 = Response.missing ∧
        ∀ m : List (GoStr × Int), (handleInput reg vars).1 ≠ Response.json (Val.counters m)) := by
  constructor
  · intro reg vars c hreg hsub hval hcnt
    have hget : counterGet c.counter vars.value = 0 := by
      unfold counterGet
      rw [hcnt]
      rfl
    rw [handleOutput_found reg vars c hreg, handleInput_found reg vars c hreg]
    simp only [hsub]
    rw [outputBody_counters, inputBody_counters, if_neg hval, if_pos hval, hget]
    exact ⟨rfl, rfl⟩
  · intro reg vars hreg
    rw [handleOutput_missing reg vars hreg, handleInput_missing reg vars hreg]
    exact ⟨rfl, rfl, fun m h => Response.noConfusion h⟩

/-- C5 witness: on the sample registry, the counters query for the registered
plugin `"influxdb"` at the absent key `"drops"` returns the zero entry, and the
query for the unregistered name `"prometheus"` returns the missing response. -/
theorem counters_zero_default_and_missing_plugin_witness :
    ((handleOutput sampleReg ⟨gs "influxdb", gs "counters", gs "drops"⟩).1 =
        Response.json (Val.counters [(gs "drops", 0)]) ∧
      (handleInput sampleReg ⟨gs "influxdb", gs "counters", gs "drops"⟩).1 =
        Response.json (Val.counters [(gs "drops", 0)])) ∧
    (handleOutput sampleReg ⟨gs "prometheus", gs "counters", gs "polls"⟩).1 =
        Response.missing :=
  ⟨counters_zero_default_and_missing_plugin.1 sampleReg
      ⟨gs "influxdb", gs "counters", gs "drops"⟩ sampleContainer
      rfl rfl (by decide) (by decide),
    (counters_zero_default_and_missing_plugin.2 sampleReg
      ⟨gs "prometheus", gs "counters", gs "polls"⟩ rfl).1⟩

/-- C6: for every registered plugin, the keyed events query returns the whole
events mapping for an empty key, the single entry for a present non-empty key,
and the uniform missing-resource response (never an empty payload) for an
absent non-empty key — identically in both handlers. -/
theorem events_keyed_lookup_policy (reg : Registry) (vars : Vars) (c : Container)
    (hreg : alookup reg vars.name = some c) (hsub : vars.sub = gs "events") :
    (vars.value = [] →
      (handleOutput reg vars).1 = Response.json (Val.eventsAll c.events) ∧
      (handleInput reg vars).1 = Response.json (Val.eventsAll c.events)) ∧
    (∀ ev, vars.value ≠ [] → alookup c.events vars.value = some ev →
      (handleOutput reg vars).1 = Response.json (Val.eventsOne ev) ∧
      (handleInput reg vars).1 = Response.json (Val.eventsOne ev)) ∧
    (vars.value ≠ [] → alookup c.events vars.value = none →
      (handleOutput reg vars).1 = Response.missing ∧
      (handleInput reg vars).1 = Response.missing ∧
      ∀ m, (handleOutput reg vars).1 ≠ Response.json (Val.eventsAll m)) := by
  rw [handleOutput_found reg vars c hreg, handleInput_found reg vars c hreg]
  simp only [hsub]
  rw [outputBody_events, inputBody_events]
  refine ⟨fun hv => ?_, fun ev hv hev => ?_, fun hv hev => ?_⟩
  · rw [if_pos hv]
    exact ⟨rfl, rfl⟩
  · rw [if_neg hv, hev]
    exact ⟨rfl, rfl⟩
  · rw [if_neg hv, hev]
    exact ⟨rfl, rfl, fun m h => Response.noConfusion h⟩

/-- C6 witness: on the sample registry, the events query for `"influxdb"`
returns the whole map for an empty key, the single entry for the present key
`"login"`, and the missing response for the absent key `"logout"`. -/
theorem events_keyed_lookup_policy_witness :
    ((handleOutput sampleReg ⟨gs "influxdb", gs "events", gs ""⟩).1 =
        Response.json (Val.eventsAll [(gs "login", 3)]) ∧
      (handleInput sampleReg ⟨gs "influxdb", gs "events", gs ""⟩).1 =
        Response.json (Val.eventsAll [(gs "login", 3)])) ∧
    ((handleOutput sampleReg ⟨gs "influxdb", gs "events", gs "login"⟩).1 =
        Response.json (Val.eventsOne 3) ∧
      (handleInput sampleReg ⟨gs "influxdb", gs "events", gs "login"⟩).1 =
        Response.json (Val.eventsOne 3)) ∧
    ((handleOutput sampleReg ⟨gs "influxdb", gs "events", gs "logout"⟩).1 =
        Response.missing ∧
      (handleInput sampleReg ⟨gs "influxdb", gs "events", gs "logout"⟩).1 =
        Response.missing) :=
  ⟨(events_keyed_lookup_policy sampleReg ⟨gs "influxdb", gs "events", gs ""⟩
      sampleContainer rfl rfl).1 rfl,
    (events_keyed_lookup_policy sampleReg ⟨gs "influxdb", gs "events", gs "login"⟩
      sampleContainer rfl rfl).2.1 3 (by decide) rfl,
    let h := (events_keyed_lookup_policy sampleReg ⟨gs "influxdb", gs "events", gs "logout"⟩
      sampleContainer rfl rfl).2.2 (by decide) rfl
    ⟨h.1, h.2.1⟩⟩

/-- C7: every plugin-scoped handler's first observable action is the catalog
lookup of the target plugin, and on a lookup miss it returns the uniform
missing-resource response with no read-lock acquisition anywhere in its
trace. -/
theorem lookup_first_and_miss_lockfree (reg : Registry) (vars : Vars) :
    ((handleOutput reg vars).2.head? = some (HEv.lookup vars.name) ∧
      (handleInput reg vars).2.head? = some (HEv.lookup vars.name)) ∧
    (alookup reg vars.name = none →
      (handleOutput reg vars).1 = Response.missing ∧
      HEv.rlock ∉ (handleOutput reg vars).2 ∧
      (handleInput reg vars).1 = Response.missing ∧
      HEv.rlock ∉ (handleInput reg vars).2) := by
  constructor
  · cases h : alookup reg vars.name with
    | none =>
      rw [handleOutput_missing reg vars h, handleInput_missing reg vars h]
      exact ⟨rfl, rfl⟩
    | some c =>
      rw [handleOutput_found reg vars c h, handleInput_found reg vars c h]
      exact ⟨rfl, rfl⟩
  · intro h
    rw [handleOutput_missing reg vars h, handleInput_missing reg vars h]
    refine ⟨rfl, ?_, rfl, ?_⟩ <;>
    · intro hmem
      simp only [List.mem_cons, List.not_mem_nil, or_false] at hmem
      rcases hmem with h2 | h2 <;> exact HEv.noConfusion h2

/-- C7 witness: on the sample registry, both handler traces for the
unregistered name `"prometheus"` start with the catalog lookup, the responses
are the missing-resource response, and no read lock appears in either trace. -/
theorem lookup_first_and_miss_lockfree_witness :
    alookup sampleReg (gs "prometheus") = none ∧
    (handleOutput sampleReg ⟨gs "prometheus", gs "config", gs ""⟩).2.head? =
      some (HEv.lookup (gs "prometheus")) ∧
    (handleOutput sampleReg ⟨gs "prometheus", gs "config", gs ""⟩).1 = Response.missing ∧
    HEv.rlock ∉ (handleOutput sampleReg ⟨gs "prometheus", gs "config", gs ""⟩).2 ∧
    (handleInput sampleReg ⟨gs "prometheus", gs "config", gs ""⟩).1 = Response.missing ∧
    HEv.rlock ∉ (handleInput sampleReg ⟨gs "prometheus", gs "config", gs ""⟩).2 :=
  let h := lookup_first_and_miss_lockfree sampleReg ⟨gs "prometheus", gs "config", gs ""⟩
  let h2 := h.2 rfl
  ⟨rfl, h.1.1, h2.1, h2.2.1, h2.2.2.1, h2.2.2.2⟩

/-- C9: on the sub-routes common to both roles — `config` (the default
branch), `eventgroups`, `events`, `counters` — the input handler and the
output handler produce identical responses (and traces) for the same registry,
name and key; in particular the mirrored counters conditionals coincide. -/
theorem input_output_common_routes_agree (reg : Registry) (name sub val : GoStr)
    (hsub : sub ∈ [gs "config", gs "eventgroups", gs "events", gs "counters"]) :
    handleOutput reg ⟨name, sub, val⟩ = handleInput reg ⟨name, sub, val⟩ := by
  have hbody : ∀ c : Container, outputBody c sub val = inputBody c sub val := by
    intro c
    simp only [List.mem_cons, List.not_mem_nil, or_false] at hsub
    rcases hsub with h | h | h | h <;> subst h
    · rw [outputBody_default c _ val (by decide) (by decide) (by decide),
        inputBody_default c _ val (by decide) (by decide) (by decide) (by decide)
          (by decide) (by decide)]
    · rw [outputBody_eventgroups, inputBody_eventgroups]
    · rw [outputBody_events, inputBody_events]
    · rw [outputBody_counters, inputBody_counters]
      by_cases hv : val = []
      · rw [if_pos hv, if_neg (not_not_intro hv)]
      · rw [if_neg hv, if_pos hv]
  cases h : alookup reg name with
  | none =>
    rw [handleOutput_missing _ _ h, handleInput_missing _ _ h]
  | some c =>
    rw [handleOutput_found _ _ c h, handleInput_found _ _ c h, hbody c]

/-- C9 witness: on the sample registry and the registered plugin `"influxdb"`,
the two handlers agree on the keyed counters route. -/
theorem input_output_common_routes_agree_witness :
    gs "counters" ∈ [gs "config", gs "eventgroups", gs "events", gs "counters"] ∧
    handleOutput sampleReg ⟨gs "influxdb", gs "counters", gs "polls"⟩ =
      handleInput sampleReg ⟨gs "influxdb", gs "counters", gs "polls"⟩ :=
  ⟨by decide,
    input_output_common_routes_agree sampleReg (gs "influxdb") (gs "counters")
      (gs "polls") (by decide)⟩

/-- C3 counterexample: for the registered plugin `"influxdb"` and its counters
route, the output handler's trace serializes the response body at a point
where the container's read lock is held (the lock, taken after the catalog
lookup, is only released by the deferred `RUnlock` when the handler returns,
after `handleJSON` has run). -/
theorem serialize_while_locked_counterexample :
    ¬ serializeOutsideLock ((handleOutput sampleReg sampleVars).2) := by
  unfold serializeOutsideLock lockHeldAt
  decide

/-- C3 amended: in every plugin-scoped read handler, a successful catalog
lookup is followed by read-lock acquisition, then serialization of the
response body while the lock is held, and the deferred release only as the
final action of the handler; on a lookup miss no lock is ever taken. -/
theorem lock_held_across_serialize (reg : Registry) (vars : Vars) (c : Container)
    (h : alookup reg vars.name = some c) :
    (handleOutput reg vars).2 =
      [HEv.lookup vars.name, HEv.rlock, HEv.serialize, HEv.runlock] ∧
    (handleInput reg vars).2 =
      [HEv.lookup vars.name, HEv.rlock, HEv.serialize, HEv.runlock] ∧
    ¬ serializeOutsideLock ((handleOutput reg vars).2) ∧
    ¬ serializeOutsideLock ((handleInput reg vars).2) := by
  have hno : ¬ serializeOutsideLock
      [HEv.lookup vars.name, HEv.rlock, HEv.serialize, HEv.runlock] := by
    intro hall
    have h2 := hall ⟨2, by simp⟩ rfl
    apply h2
    unfold lockHeldAt
    simp [List.count_cons, List.count_nil]
  rw [handleOutput_found reg vars c h, handleInput_found reg vars c h]
  exact ⟨rfl, rfl, hno, hno⟩

/-- C3 amended witness: the concrete trace of the output handler on the
registered sample plugin is lookup, lock, serialize, unlock. -/
theorem lock_held_across_serialize_witness :
    (handleOutput sampleReg sampleVars).2 =
      [HEv.lookup (gs "influxdb"), HEv.rlock, HEv.serialize, HEv.runlock] :=
  (lock_held_across_serialize sampleReg sampleVars sampleContainer rfl).1

/-- The registry loop resolves configs strictly in registration order: its
trace is the attempts on some prefix of the registered list, and on success
that prefix is the whole list. -/
theorem parseSeq_trace (env : CfgEnv) (ts : List Target) :
    ∃ k, k ≤ ts.length ∧
      (parseSeq env ts).2 = (ts.take k).map REv.parse ∧
      ((parseSeq env ts).1 = none → k = ts.length) := by
  induction ts with
  | nil =>
    exact ⟨0, Nat.le_refl 0, rfl, fun _ => rfl⟩
  | cons t rest ih =>
    cases h : parseInterface env t with
    | some e =>
      refine ⟨1, by simp, ?_, ?_⟩
      · simp [parseSeq, h]
      · intro h0
        simp [parseSeq, h] at h0
    | none =>
      obtain ⟨k, hk, htr, himp⟩ := ih
      refine ⟨k + 1, by simpa using Nat.succ_le_succ hk, ?_, ?_⟩
      · simp [parseSeq, h, htr, List.take_succ_cons]
      · intro h0
        simp [parseSeq, h] at h0
        simp [himp h0]

/-- C1: `ParseConfigs` executes core-config resolution, dynamic plugin
loading, input-config resolution and output-config resolution in this fixed
order; the first failing step's error is returned and no later step executes;
each registry step attempts the registered configs in registration order
between taking and releasing that registry's lock, all of them on success. -/
theorem parseConfigs_pipeline (env : CfgEnv) :
    (∀ e, parseInterface env env.core = some e →
        ParseConfigs env = (some e, [StepTag.core])) ∧
    (parseInterface env env.core = none →
      ∀ e, (LoadPlugins env.fs env.plugins).1 = some e →
        ParseConfigs env = (some e, [StepTag.core, StepTag.load])) ∧
    (parseInterface env env.core = none →
      (LoadPlugins env.fs env.plugins).1 = none →
      ∀ e, (parseInputs env).1 = some e →
        ParseConfigs env = (some e, [StepTag.core, StepTag.load, StepTag.inputs])) ∧
    (parseInterface env env.core = none →
      (LoadPlugins env.fs env.plugins).1 = none →
      (parseInputs env).1 = none →
        ParseConfigs env = ((parseOutputs env).1,
          [StepTag.core, StepTag.load, StepTag.inputs, StepTag.outputs])) ∧
    (∃ k, k ≤ env.inputs.length ∧
      (parseInputs env).2 =
        REv.lock :: ((env.inputs.take k).map REv.parse ++ [REv.unlock]) ∧
      ((parseInputs env).1 = none → k = env.inputs.length)) ∧
    (∃ k, k ≤ env.outputs.length ∧
      (parseOutputs env).2 =
        REv.lock :: ((env.outputs.take k).map REv.parse ++ [REv.unlock]) ∧
      ((parseOutputs env).1 = none → k = env.outputs.length)) := by
  refine ⟨?_, ?_, ?_, ?_, ?_, ?_⟩
  · intro e h
    simp [ParseConfigs, h]
  · intro h1 e h2
    simp [ParseConfigs, h1, h2]
  · intro h1 h2 e h3
    simp [ParseConfigs, h1, h2, h3]
  · intro h1 h2 h3
    simp [ParseConfigs, h1, h2, h3]
  · obtain ⟨k, hk, htr, himp⟩ := parseSeq_trace env env.inputs
    exact ⟨k, hk, by simp [parseInputs, htr], fun h => himp (by simpa [parseInputs] using h)⟩
  · obtain ⟨k, hk, htr, himp⟩ := parseSeq_trace env env.outputs
    exact ⟨k, hk, by simp [parseOutputs, htr], fun h => himp (by simpa [parseOutputs] using h)⟩

/-- C1 witness: in the all-success environment the pipeline runs all four
steps in order and succeeds; in the environment whose core config is
malformed, the pipeline stops at the first step with the wrapped parse error. -/
theorem parseConfigs_pipeline_witness :
    (parseInterface okEnv okEnv.core = none ∧
      (LoadPlugins okEnv.fs okEnv.plugins).1 = none ∧
      (parseInputs okEnv).1 = none ∧
      ParseConfigs okEnv = ((parseOutputs okEnv).1,
        [StepTag.core, StepTag.load, StepTag.inputs, StepTag.outputs])) ∧
    (parseInterface coreFailEnv coreFailEnv.core =
        some (Err.wrap (gs "cnfg unmarshal") (Err.base (gs "bad toml"))) ∧
      ParseConfigs coreFailEnv =
        (some (Err.wrap (gs "cnfg unmarshal") (Err.base (gs "bad toml"))),
          [StepTag.core])) :=
  ⟨⟨rfl, rfl, rfl, (parseConfigs_pipeline okEnv).2.2.2.1 rfl rfl rfl⟩,
    ⟨rfl, (parseConfigs_pipeline coreFailEnv).1 _ rfl⟩⟩

/-- `TrimSuffix` strips exactly an appended `".so"`, so a name already ending
in `".so"` is returned unchanged by the normalization. -/
theorem normalizeSo_append (p : GoStr) : normalizeSo (p ++ soSuffix) = p ++ soSuffix := by
  unfold normalizeSo trimSuffix
  rw [if_pos (List.suffix_append p soSuffix)]
  have hlen : (p ++ soSuffix).length - soSuffix.length = p.length := by simp
  rw [hlen, List.take_left]

/-- C4 counterexample: the declared path `"a.so.so"` is its own normalization,
and that normalization does not carry exactly one `".so"` suffix — stripping
one occurrence still leaves a path ending in `".so"`. -/
theorem normalize_exactly_one_suffix_counterexample :
    normalizeSo (gs "a.so.so") = gs "a.so.so" ∧
    ¬ exactlyOneSoSuffix (normalizeSo (gs "a.so.so")) := by
  refine ⟨by decide, ?_⟩
  unfold exactlyOneSoSuffix normalizeSo trimSuffix soSuffix
  decide

/-- C4 amended: normalization strips at most one trailing `".so"` and appends
`".so"`: the result always ends in `".so"`, a path with no `".so"` suffix gets
exactly one appended (so `"foo"` and `"foo.so"` both resolve to `"foo.so"`),
normalization is idempotent — but a doubled suffix like `"a.so.so"` survives;
a path whose normalization is just `".so"` is silently skipped: the loader
continues with the next path, reports no error, and loads nothing for it. -/
theorem normalizeSo_amended :
    (∀ p : GoStr, soSuffix <:+ normalizeSo p) ∧
    (∀ p : GoStr, ¬ soSuffix <:+ p → normalizeSo p = p ++ soSuffix) ∧
    (∀ p : GoStr, normalizeSo (p ++ soSuffix) = p ++ soSuffix) ∧
    (∀ p : GoStr, normalizeSo (normalizeSo p) = normalizeSo p) ∧
    (∀ (fs : FsEnv) (p : GoStr) (rest : List GoStr), normalizeSo p = soSuffix →
      LoadPlugins fs (p :: rest) = LoadPlugins fs rest) := by
  refine ⟨?_, ?_, normalizeSo_append, ?_, ?_⟩
  · intro p
    exact List.suffix_append _ _
  · intro p h
    unfold normalizeSo trimSuffix
    rw [if_neg h]
  · intro p
    show normalizeSo (trimSuffix p soSuffix ++ soSuffix) = _
    rw [normalizeSo_append]
    rfl
  · intro fs p rest h
    simp [LoadPlugins, h]

/-- C4 amended witness: `"foo"` has no `".so"` suffix and normalizes to
`"foo" ++ ".so"`; `"foo" ++ ".so"` normalizes to itself; the declared path
`".so"` normalizes to just the suffix and is skipped by the loader. -/
theorem normalizeSo_amended_witness :
    (¬ soSuffix <:+ gs "foo") ∧
    normalizeSo (gs "foo") = gs "foo" ++ soSuffix ∧
    normalizeSo (gs "foo" ++ soSuffix) = gs "foo" ++ soSuffix ∧
    normalizeSo (gs ".so") = soSuffix ∧
    LoadPlugins okEnv.fs (gs ".so" :: [gs "example"]) = LoadPlugins okEnv.fs [gs "example"] :=
  ⟨by decide, normalizeSo_amended.2.1 (gs "foo") (by decide),
    normalizeSo_amended.2.2.1 (gs "foo"), by decide,
    normalizeSo_amended.2.2.2.2 okEnv.fs (gs ".so") [gs "example"] (by decide)⟩

/-- C8: if opening any dynamic plugin module fails, `LoadPlugins` returns the
failure wrapped as `"opening plugin: %w"`, and extending the declared list
beyond the failing point changes nothing — no later path is examined or
loaded. -/
theorem loadPlugins_first_failure_aborts (fs : FsEnv) (ps rest : List GoStr) (e : Err) :
    (LoadPlugins fs ps).1 = some e →
    (∃ cause, e = Err.wrap (gs "opening plugin") cause) ∧
    LoadPlugins fs (ps ++ rest) = LoadPlugins fs ps := by
  induction ps with
  | nil =>
    intro h
    simp [LoadPlugins] at h
  | cons p ps ih =>
    intro h
    by_cases hn : normalizeSo p = soSuffix
    · have hskip : ∀ l, LoadPlugins fs (p :: l) = LoadPlugins fs l := by
        intro l
        simp [LoadPlugins, hn]
      rw [hskip] at h
      obtain ⟨hc, heq⟩ := ih h
      rw [List.cons_append, hskip, hskip, heq]
      exact ⟨hc, rfl⟩
    · have hcons : ∀ l, LoadPlugins fs (p :: l) =
          match fs.openErr (if fs.statMissing (normalizeSo p) then
              pathJoin DefaultObjPath (normalizeSo p) else normalizeSo p) with
          | some e2 => (some (Err.wrap (gs "opening plugin") e2), [])
          | none => ((LoadPlugins fs l).1,
              (if fs.statMissing (normalizeSo p) then
                pathJoin DefaultObjPath (normalizeSo p) else normalizeSo p) ::
                (LoadPlugins fs l).2) := by
        intro l
        simp only [LoadPlugins]
        rw [if_neg hn]
      cases ho : fs.openErr (if fs.statMissing (normalizeSo p) then
          pathJoin DefaultObjPath (normalizeSo p) else normalizeSo p) with
      | some e2 =>
        rw [hcons ps, ho] at h
        simp only [Option.some.injEq] at h
        refine ⟨⟨e2, h.symm⟩, ?_⟩
        rw [List.cons_append, hcons (ps ++ rest), ho, hcons ps, ho]
      | none =>
        rw [hcons ps, ho] at h
        simp only at h
        obtain ⟨hc, heq⟩ := ih h
        refine ⟨hc, ?_⟩
        rw [List.cons_append, hcons (ps ++ rest), ho, hcons ps, ho, heq]

/-- C8 witness: with every `plugin.Open` failing, loading the declared list
`["dynamic"]` fails with the wrapped cause, and appending a further declared
path `"other"` leaves the result untouched — the later path is never loaded. -/
theorem loadPlugins_first_failure_aborts_witness :
    (LoadPlugins openFailFs [gs "dynamic"]).1 =
      some (Err.wrap (gs "opening plugin") (Err.base (gs "no such file"))) ∧
    (∃ cause, Err.wrap (gs "opening plugin") (Err.base (gs "no such file")) =
      Err.wrap (gs "opening plugin") cause) ∧
    LoadPlugins openFailFs ([gs "dynamic"] ++ [gs "other"]) =
      LoadPlugins openFailFs [gs "dynamic"] :=
  ⟨by decide,
    loadPlugins_first_failure_aborts openFailFs [gs "dynamic"] [gs "other"]
      (Err.wrap (gs "opening plugin") (Err.base (gs "no such file"))) (by decide)⟩

/-- `parseRole` on a registered entry whose declared path has a manifest
match: the enriched record is prepended. -/
theorem parseRole_cons_match (deps : List DepModule) (kv : GoStr × GoStr)
    (rest : List (GoStr × GoStr)) (d : DepModule)
    (hf : deps.find? (fun d2 => decide (d2.path = kv.2)) = some d) :
    parseRole deps (kv :: rest) =
      (kv.1, PluginRec.mk kv.1 d.version kv.2) :: parseRole deps rest := by
  unfold parseRole
  rw [List.filterMap_cons]
  simp [hf]

/-- `parseRole` on a registered entry whose declared path has no manifest
match: the entry contributes nothing. -/
theorem parseRole_cons_nomatch (deps : List DepModule) (kv : GoStr × GoStr)
    (rest : List (GoStr × GoStr))
    (hf : deps.find? (fun d2 => decide (d2.path = kv.2)) = none) :
    parseRole deps (kv :: rest) = parseRole deps rest := by
  unfold parseRole
  rw [List.filterMap_cons]
  simp [hf]

/-- A name not registered at all is absent from `parseRole`'s result. -/
theorem parseRole_not_mem (deps : List DepModule) (values : List (GoStr × GoStr))
    (k : GoStr) (h : k ∉ values.map Prod.fst) :
    alookup (parseRole deps values) k = none := by
  induction values with
  | nil => rfl
  | cons kv rest ih =>
    simp only [List.map_cons, List.mem_cons, not_or] at h
    obtain ⟨hne, hrest⟩ := h
    cases hf : deps.find? (fun d2 => decide (d2.path = kv.2)) with
    | some d =>
      rw [parseRole_cons_match deps kv rest d hf]
      simp only [alookup]
      rw [if_neg (fun hh => hne hh.symm)]
      exact ih hrest
    | none =>
      rw [parseRole_cons_nomatch deps kv rest hf]
      exact ih hrest

/-- The key fact about `parseRole`: for a registered name `k` with declared
path `v` (names unique per role), the produced mapping holds exactly the
record enriched from the first matching manifest module, and no record at all
when no module's path matches. -/
theorem parseRole_lookup (deps : List DepModule) (values : List (GoStr × GoStr))
    (k v : GoStr) (hnodup : (values.map Prod.fst).Nodup) (hmem : (k, v) ∈ values) :
    alookup (parseRole deps values) k =
      (deps.find? (fun d => decide (d.path = v))).map
        (fun d => PluginRec.mk k d.version v) := by
  induction values with
  | nil => cases hmem
  | cons kv rest ih =>
    simp only [List.map_cons, List.nodup_cons] at hnodup
    obtain ⟨hknotin, hnd⟩ := hnodup
    rcases List.mem_cons.mp hmem with heq | hmemr
    · cases heq
      cases hf : deps.find? (fun d => decide (d.path = v)) with
      | some d =>
        rw [parseRole_cons_match deps (k, v) rest d hf]
        simp [alookup]
      | none =>
        rw [parseRole_cons_nomatch deps (k, v) rest hf,
          parseRole_not_mem deps rest k hknotin]
        rfl
    · have hk : k ∈ rest.map Prod.fst := List.mem_map.mpr ⟨(k, v), hmemr, rfl⟩
      have hne : kv.1 ≠ k := fun h2 => hknotin (h2 ▸ hk)
      cases hf : deps.find? (fun d2 => decide (d2.path = kv.2)) with
      | some d =>
        rw [parseRole_cons_match deps kv rest d hf]
        simp only [alookup, if_neg hne]
        exact ih hnd hmemr
      | none =>
        rw [parseRole_cons_nomatch deps kv rest hf]
        exact ih hnd hmemr

/-- C2 counterexample: in the environment whose manifest has no dependencies,
the registered input name `"unifi"` (declared path
`"github.com/unpoller/unifi"`) is NOT present in the returned `"inputs"`
mapping at all — the claim says it should be present with an empty version. -/
theorem getPlugins_unmatched_present_counterexample :
    (gs "unifi", gs "github.com/unpoller/unifi") ∈ unmatchedEnv.inputsMap ∧
    alookup (getPlugins unmatchedEnv) (gs "inputs") = some [] ∧
    alookup (parseRole [] unmatchedEnv.inputsMap) (gs "unifi") = none := by
  refine ⟨by decide, ?_, by decide⟩
  decide

/-- C2 amended: listing plugin descriptors enriches each registered name whose
declared source path matches a build-manifest module with that module's
version (first match wins); a registered name with no matching manifest entry
is omitted from the returned mapping — its absence from the manifest is not an
error, the listing still succeeds. -/
theorem getPlugins_manifest_match_amended (env : CollectEnv) (bi : BuildInfo)
    (hbi : env.buildInfo = some bi)
    (hnodupIn : (env.inputsMap.map Prod.fst).Nodup)
    (hnodupOut : (env.outputsMap.map Prod.fst).Nodup) (k v : GoStr) :
    alookup (getPlugins env) (gs "inputs") = some (parseRole bi.deps env.inputsMap) ∧
    alookup (getPlugins env) (gs "outputs") = some (parseRole bi.deps env.outputsMap) ∧
    ((k, v) ∈ env.inputsMap →
      alookup (parseRole bi.deps env.inputsMap) k =
        (bi.deps.find? (fun d => decide (d.path = v))).map
          (fun d => PluginRec.mk k d.version v)) ∧
    ((k, v) ∈ env.outputsMap →
      alookup (parseRole bi.deps env.outputsMap) k =
        (bi.deps.find? (fun d => decide (d.path = v))).map
          (fun d => PluginRec.mk k d.version v)) := by
  refine ⟨?_, ?_, fun hmem => parseRole_lookup bi.deps env.inputsMap k v hnodupIn hmem,
    fun hmem => parseRole_lookup bi.deps env.outputsMap k v hnodupOut hmem⟩
  · simp [getPlugins, hbi, alookup]
  · simp [getPlugins, hbi, alookup]
    intro hcontra
    exact absurd hcontra (by decide)

/-- C2 amended witness: with a manifest holding the matching module at version
`v0.3.5`, the registered input `"unifi"` is enriched to that version; with an
empty manifest the same registered name is simply absent from the mapping. -/
theorem getPlugins_manifest_match_amended_witness :
    alookup (getPlugins matchedEnv) (gs "inputs") =
      some (parseRole [⟨gs "github.com/unpoller/unifi", gs "v0.3.5"⟩] matchedEnv.inputsMap) ∧
    alookup (parseRole [⟨gs "github.com/unpoller/unifi", gs "v0.3.5"⟩] matchedEnv.inputsMap)
        (gs "unifi") =
      some (PluginRec.mk (gs "unifi") (gs "v0.3.5") (gs "github.com/unpoller/unifi")) ∧
    alookup (parseRole [] unmatchedEnv.inputsMap) (gs "unifi") = none := by
  have h := getPlugins_manifest_match_amended matchedEnv
    ⟨[⟨gs "github.com/unpoller/unifi", gs "v0.3.5"⟩]⟩ rfl (by decide) (by decide)
    (gs "unifi") (gs "github.com/unpoller/unifi")
  have h2 := getPlugins_manifest_match_amended unmatchedEnv ⟨[]⟩ rfl (by decide) (by decide)
    (gs "unifi") (gs "github.com/unpoller/unifi")
  exact ⟨h.1, by rw [h.2.2.1 (by decide)]; decide, by rw [h2.2.2.1 (by decide)]; decide⟩

/-- C10: building the plugin descriptor maps is total even without build
info: with `debug.ReadBuildInfo` unavailable an empty dependency list is
substituted, and the result is a mapping with exactly the keys `"inputs"` and
`"outputs"`, each bound to a (possibly empty) descriptor map. -/
theorem getPlugins_total_without_buildinfo (env : CollectEnv)
    (h : env.buildInfo = none) :
    getPlugins env =
      [(gs "inputs", parseRole [] env.inputsMap),
       (gs "outputs", parseRole [] env.outputsMap)] ∧
    (getPlugins env).map Prod.fst = [gs "inputs", gs "outputs"] := by
  constructor <;> simp [getPlugins, h]

/-- C10 witness: the concrete environment reporting no build info still yields
the two-key mapping, with the registered-but-unmatched input omitted. -/
theorem getPlugins_total_without_buildinfo_witness :
    noBuildInfoEnv.buildInfo = none ∧
    getPlugins noBuildInfoEnv =
      [(gs "inputs", parseRole [] noBuildInfoEnv.inputsMap),
       (gs "outputs", parseRole [] noBuildInfoEnv.outputsMap)] ∧
    (getPlugins noBuildInfoEnv).map Prod.fst = [gs "inputs", gs "outputs"] :=
  ⟨rfl, (getPlugins_total_without_buildinfo noBuildInfoEnv rfl).1,
    (getPlugins_total_without_buildinfo noBuildInfoEnv rfl).2⟩
